import Mathlib

/-!
Verification development for the bpn-yean survey system.

The definitions below are a shallow embedding of the three algorithmic
components of the repository:

* the identity-linking matcher (`src/js/contact-update.js`),
* the step-wizard engine (`src/js/survey.js`),
* the dashboard aggregation engine (`src/js/admin.js`).

Persistent storage is modelled as a list of identified documents; the
browser form state is modelled as explicit lists of form entries and
checkbox states; timestamps are natural numbers (milliseconds).
-/

namespace BpnYean

/-! ### Data model (§3 of the design, `src/js` wire shape) -/

/-- One stored survey submission.  Survey answers are the discriminator
fields, the optional `business_type`, the five rating fields (stored as the
raw option strings the form produces), two representative free-text fields,
the client survey id, timestamps and duration.  Identity fields are optional
and `hasContactInfo` is false until the matcher links a contact. -/
structure Submission where
  interest : String
  market_obstacle : String
  business_type : Option String := none
  financial_proposals : Option String := none
  cash_flow : Option String := none
  insurance : Option String := none
  record_keeping : Option String := none
  cooperative : Option String := none
  biggest_challenge : Option String := none
  session_feedback : Option String := none
  surveyId : String := ""
  submittedAt : Option Nat := none
  completionTime : Option Nat := none
  fullName : Option String := none
  companyName : Option String := none
  email : Option String := none
  phone : Option String := none
  contactUpdatedAt : Option Nat := none
  hasContactInfo : Bool := false
deriving DecidableEq

/-- The contact-info payload read from the contact form
(`contact-update.js`, `handleSubmit` lines 40-49).  `businessType` is
`none` when the form field was absent or empty (`... || null`). -/
structure ContactData where
  fullName : String
  companyName : String
  email : String
  phone : String
  interest : String
  marketObstacle : String
  businessType : Option String := none
deriving DecidableEq

/-- A stored document: a Firestore doc id together with its data. -/
structure Doc where
  id : Nat
  data : Submission
deriving DecidableEq

/-! ### Matching engine (`src/js/contact-update.js`) -/

/-- One element of the candidate list built by `findMatchingSubmissions`
(lines 95-103): doc id, its data, and the computed match score. -/
structure MatchEntry where
  id : Nat
  data : Submission
  score : Nat
deriving DecidableEq

/-- `calculateMatchScore` (contact-update.js lines 109-124): +10 for an
interest match, +10 for a market-obstacle match, +5 when the payload
provides a business type equal to the submission's. -/
def calculateMatchScore (submissionData : Submission) (contactData : ContactData) : Nat :=
  let score : Nat := 0
  let score := if submissionData.interest = contactData.interest then score + 10 else score
  let score := if submissionData.market_obstacle = contactData.marketObstacle then
      score + 10 else score
  match contactData.businessType with
  | some bt => if submissionData.business_type = some bt then score + 5 else score
  | none => score

/-- The discriminator pre-filter used by the Firestore query in
`findMatchingSubmissions` (lines 86-90): equality on both `interest`
and `market_obstacle`. -/
def discrimFilter (contactData : ContactData) (d : Doc) : Bool :=
  d.data.interest == contactData.interest &&
    d.data.market_obstacle == contactData.marketObstacle

/-- The candidate list in retrieval order, before sorting
(lines 92-103): every stored doc passing the discriminator filter,
tagged with its score. -/
def candidates (store : List Doc) (contactData : ContactData) : List MatchEntry :=
  (store.filter (discrimFilter contactData)).map
    (fun d => { id := d.id, data := d.data, score := calculateMatchScore d.data contactData })

/-- Insert a match entry into a list sorted descending by score, after all
entries of greater-or-equal score.  Folding this over the candidate list
models JavaScript's stable `Array.prototype.sort` with comparator
`(a, b) => b.score - a.score` (line 106): descending by score, retrieval
order as the tie-break. -/
def insertByScore (m : MatchEntry) : List MatchEntry → List MatchEntry
  | [] => [m]
  | x :: xs => if x.score ≤ m.score then m :: x :: xs else x :: insertByScore m xs

/-- Stable descending-by-score sort (line 106). -/
def sortByScoreDesc (l : List MatchEntry) : List MatchEntry :=
  l.foldr insertByScore []

/-- `findMatchingSubmissions` (lines 83-107): query by the two
discriminator fields, attach scores, sort descending by score. -/
def findMatchingSubmissions (store : List Doc) (contactData : ContactData) : List MatchEntry :=
  sortByScoreDesc (candidates store contactData)

/-- The field write performed by `updateSubmission` (lines 129-136) on the
chosen document's data: the four contact fields, the update timestamp and
the `hasContactInfo` flag; empty email/phone are stored as null
(`... || null`).  `now` stands for the server timestamp. -/
def applyContactUpdate (s : Submission) (contactData : ContactData) (now : Nat) : Submission :=
  { s with
    fullName := some contactData.fullName
    companyName := some contactData.companyName
    email := if contactData.email = "" then none else some contactData.email
    phone := if contactData.phone = "" then none else some contactData.phone
    contactUpdatedAt := some now
    hasContactInfo := true }

/-- `updateSubmission`'s effect on the store (lines 126-138): Firestore's
`updateDoc` merges the update fields into the document with the given id
and touches no other document. -/
def updateSubmission (store : List Doc) (id : Nat) (contactData : ContactData)
    (now : Nat) : List Doc :=
  store.map (fun d =>
    if d.id = id then { d with data := applyContactUpdate d.data contactData now } else d)

/-- What the matcher reports back to the caller (`handleSubmit`
lines 59-68). -/
inductive MatchOutcome where
  | noMatch
  | autoLinked (id : Nat)
  | multipleMatches (presented : List MatchEntry)
deriving DecidableEq

/-- `handleNoMatch`'s effect on the store (lines 155-180): it only shows a
dialog offering "take the full survey" or "try different answers"; neither
branch performs any store write, so the store passes through unchanged. -/
def handleNoMatch (store : List Doc) : List Doc :=
  store

/-- `handleMultipleMatches` (lines 182-221): the top 3 candidates are
presented; `choice = some k` models the human picking radio option `k`
(the code then updates `matches[k]`), `choice = none` models cancelling.
An out-of-range `k` makes the code throw before any write, so the store is
unchanged in that case as well. -/
def handleMultipleMatches (store : List Doc) (ms : List MatchEntry)
    (contactData : ContactData) (now : Nat) (choice : Option Nat) : List Doc :=
  match choice with
  | none => store
  | some k =>
    match ms[k]? with
    | some m => updateSubmission store m.id contactData now
    | none => store

/-- The dispatch in `handleSubmit` (lines 57-68) on the candidate count:
0 → no match (no mutation), 1 → automatic link, ≥2 → human disambiguation
over the top 3. -/
def handleSubmit (store : List Doc) (contactData : ContactData) (now : Nat)
    (choice : Option Nat) : List Doc × MatchOutcome :=
  let matchingSubmissions := findMatchingSubmissions store contactData
  match matchingSubmissions with
  | [] => (handleNoMatch store, .noMatch)
  | [m] => (updateSubmission store m.id contactData now, .autoLinked m.id)
  | _ => (handleMultipleMatches store matchingSubmissions contactData now choice,
          .multipleMatches (matchingSubmissions.take 3))

/-! ### Wizard engine (`src/js/survey.js`) -/

/-- A value stored in the wizard's cumulative `formData` object: either a
single string or an array of strings (how the code represents multi-value
fields). -/
inductive FormValue where
  | str (s : String)
  | arr (l : List String)
deriving DecidableEq

/-- JavaScript truthiness of a `formData` slot (`if (this.formData[key])`,
survey.js line 405): the empty string is falsy, every array (even an empty
one) is truthy. -/
def FormValue.truthy : FormValue → Bool
  | .str s => s ≠ ""
  | .arr _ => true

/-- The cumulative answer mapping `this.formData`, a JS object used purely
through key lookup and key assignment. -/
def FormDataMap : Type := String → Option FormValue

/-- Assignment `this.formData[k] = v`. -/
def setField (fd : FormDataMap) (k : String) (v : FormValue) : FormDataMap :=
  fun x => if x = k then some v else fd x

/-- One iteration of the `for ([key, value] of formData.entries())` loop in
`saveCurrentStepData` (survey.js lines 404-415): a truthy existing array is
appended to, a truthy existing string becomes a two-element array, anything
falsy (absent or empty string) is overwritten. -/
def mergeFormEntry (fd : FormDataMap) (k : String) (v : String) : FormDataMap :=
  match fd k with
  | some old =>
    if old.truthy then
      match old with
      | .arr l => setField fd k (.arr (l ++ [v]))
      | .str s => setField fd k (.arr [s, v])
    else setField fd k (.str v)
  | none => setField fd k (.str v)

/-- One checkbox input of the current step: group name, option value, and
whether it is checked. -/
structure Checkbox where
  name : String
  value : String
  checked : Bool
deriving DecidableEq

/-- The checked values of checkbox group `n`, in document order
(survey.js lines 421-429). -/
def checkedValues (checkboxes : List Checkbox) (n : String) : List String :=
  (checkboxes.filter (fun cb => cb.name == n && cb.checked)).map Checkbox.value

/-- The set of checkbox group names of the current step
(`Object.keys(checkboxGroups)`, line 432); every checkbox contributes its
group name whether checked or not. -/
def checkboxNames (checkboxes : List Checkbox) : List String :=
  (checkboxes.map Checkbox.name).dedup

/-- `saveCurrentStepData` (survey.js lines 399-435): first fold the whole
form's `FormData` entries into the mapping, then overwrite each checkbox
group's slot with the array of currently checked values of that group. -/
def saveCurrentStepData (fd : FormDataMap) (entries : List (String × String))
    (checkboxes : List Checkbox) : FormDataMap :=
  let fd1 := entries.foldl (fun fd kv => mergeFormEntry fd kv.1 kv.2) fd
  (checkboxNames checkboxes).foldl
    (fun fd n => setField fd n (.arr (checkedValues checkboxes n))) fd1

/-- A `[required]` control examined by `validateCurrentStep`
(survey.js lines 342-357): a radio input (with the group's checked state),
a text/textarea input with its value, or a control of another type, which
the validation loop ignores. -/
inductive ReqField where
  | radio (name : String) (groupChecked : Bool)
  | textf (name : String) (value : String)
  | other (name : String)
deriving DecidableEq

/-- The violation, if any, a single required field contributes
(lines 342-357): an unchecked radio group, or a text value that is empty
after trimming. -/
def fieldViolation : ReqField → Option String
  | .radio n groupChecked => if groupChecked then none else some n
  | .textf n v => if v.trim = "" then some n else none
  | .other _ => none

/-- The violation, if any, a checkbox group contributes (lines 360-368):
no checkbox of the group is checked. -/
def groupViolation (checkboxes : List Checkbox) (n : String) : Option String :=
  if (checkboxes.filter (fun cb => cb.name == n)).any Checkbox.checked then none else some n

/-- The DOM state of the current step that validation and saving read:
its required controls, its checkboxes, and the whole form's `FormData`
entry list. -/
structure StepForm where
  requiredFields : List ReqField
  checkboxes : List Checkbox
  entries : List (String × String)

/-- The violated fields `validateCurrentStep` reports (lines 327-381),
required fields first, then checkbox groups, as the code iterates. -/
def stepViolations (form : StepForm) : List String :=
  form.requiredFields.filterMap fieldViolation ++
    (checkboxNames form.checkboxes).filterMap (groupViolation form.checkboxes)

/-- `validateCurrentStep`'s boolean result: valid iff no violation was
recorded. -/
def validateCurrentStep (form : StepForm) : Bool :=
  (stepViolations form).isEmpty

/-- An activity event emitted by `trackActivity`. -/
inductive ActivityEvent where
  | surveyStarted
  | stepCompleted (step : Nat)
  | surveyCompleted (completionTime : Nat)
  | surveyAbandoned (step : Nat)
deriving DecidableEq

/-- `this.totalSteps = 14` (survey.js line 19, steps 0-13); the page
provides one `.survey-step` element per step, so `this.steps.length`
equals `totalSteps`. -/
def totalSteps : Nat := 14

/-- The wizard session state the engine mutates: the 0-based step cursor,
the cumulative answer mapping and the emitted activity events. -/
structure WizardState where
  currentStep : Nat
  formData : FormDataMap
  events : List ActivityEvent

/-- `changeStep` (survey.js lines 297-325): guarded by the existence of the
target step element (`if (!newStepElement) return`), then sets
`this.currentStep = newStep`.  Animation and scrolling have no bearing on
the state. -/
def changeStep (st : WizardState) (newStep : Nat) : WizardState :=
  if newStep < totalSteps then { st with currentStep := newStep } else st

/-- `nextStep` (survey.js lines 278-289): bail out unchanged if validation
fails; otherwise save the step's data, and if not on the last step move the
cursor forward and emit a step-completed event whose step payload is
`this.currentStep - 1`, read after the cursor has moved. -/
def nextStep (st : WizardState) (form : StepForm) : WizardState :=
  if validateCurrentStep form = false then st
  else
    let st1 := { st with
      formData := saveCurrentStepData st.formData form.entries form.checkboxes }
    if st1.currentStep < totalSteps - 1 then
      let st2 := changeStep st1 (st1.currentStep + 1)
      { st2 with events := st2.events ++ [.stepCompleted (st2.currentStep - 1)] }
    else st1

/-- `previousStep` (survey.js lines 291-295): move the cursor back one step
when not on step 0; no validation, no saving, no event. -/
def previousStep (st : WizardState) : WizardState :=
  if st.currentStep > 0 then changeStep st (st.currentStep - 1) else st

/-! ### Aggregation engine (`src/js/admin.js`) -/

/-- The five rating fields charted by `updateTrainingChart`
(admin.js line 440). -/
inductive RatingField where
  | financial_proposals
  | cash_flow
  | insurance
  | record_keeping
  | cooperative
deriving DecidableEq

/-- Field access `s[field]` for a rating field name. -/
def Submission.rating (s : Submission) : RatingField → Option String
  | .financial_proposals => s.financial_proposals
  | .cash_flow => s.cash_flow
  | .insurance => s.insurance
  | .record_keeping => s.record_keeping
  | .cooperative => s.cooperative

/-- The whitespace JavaScript's `parseInt` skips at the start of its
input. -/
def isJsSpace (c : Char) : Bool :=
  c = ' ' || c = '\t' || c = '\n' || c = '\r' || c.toNat = 11 || c.toNat = 12

/-- Hexadecimal digit test for `parseInt`'s `0x` form. -/
def isHexDigitChar (c : Char) : Bool :=
  c.isDigit || ('a' ≤ c && c ≤ 'f') || ('A' ≤ c && c ≤ 'F')

/-- Value of the decimal digit string `l`. -/
def digitsToNat (l : List Char) : Nat :=
  l.foldl (fun n c => 10 * n + (c.toNat - 48)) 0

/-- Value of one hexadecimal digit. -/
def hexDigitVal (c : Char) : Nat :=
  if c.isDigit then c.toNat - 48
  else if 'a' ≤ c && c ≤ 'f' then c.toNat - 97 + 10
  else c.toNat - 65 + 10

/-- Value of the hexadecimal digit string `l`. -/
def hexDigitsToNat (l : List Char) : Nat :=
  l.foldl (fun n c => 16 * n + hexDigitVal c) 0

/-- JavaScript's `parseInt(s)` with no radix argument: skip leading
whitespace, read an optional sign, then either a `0x`/`0X` hexadecimal
literal or the longest decimal-digit prefix; `none` models `NaN` (no
digits found). -/
def jsParseInt (s : String) : Option Int :=
  let cs := s.data.dropWhile isJsSpace
  let signAndRest : Int × List Char :=
    match cs with
    | '-' :: rest => (-1, rest)
    | '+' :: rest => (1, rest)
    | _ => (1, cs)
  let sign := signAndRest.1
  let cs1 := signAndRest.2
  match cs1 with
  | '0' :: x :: rest =>
    if x = 'x' || x = 'X' then
      let ds := rest.takeWhile isHexDigitChar
      if ds.isEmpty then none else some (sign * (hexDigitsToNat ds : Int))
    else
      let ds := cs1.takeWhile Char.isDigit
      if ds.isEmpty then none else some (sign * (digitsToNat ds : Int))
  | _ =>
    let ds := cs1.takeWhile Char.isDigit
    if ds.isEmpty then none else some (sign * (digitsToNat ds : Int))

/-- The `values` array of `updateTrainingChart` (admin.js lines 442-444):
keep the submissions whose rating field is truthy (present and non-empty),
map each through `parseInt(...) || 0` (unparseable values become 0). -/
def trainingValues (subs : List Submission) (f : RatingField) : List Int :=
  (subs.filter (fun s => (s.rating f).getD "" ≠ "")).map
    (fun s => ((s.rating f).bind jsParseInt).getD 0)

/-- One bar of `updateTrainingChart` (admin.js line 446): the average of
the `values` array; an empty array yields 0. -/
def fieldAverage (subs : List Submission) (f : RatingField) : ℚ :=
  if (trainingValues subs f).length > 0 then
    ((trainingValues subs f).sum : ℚ) / ((trainingValues subs f).length : ℚ)
  else 0

/-- The five training-chart averages, in the field order of admin.js
line 440. -/
def ratingAverages (subs : List Submission) : List ℚ :=
  [fieldAverage subs .financial_proposals, fieldAverage subs .cash_flow,
   fieldAverage subs .insurance, fieldAverage subs .record_keeping,
   fieldAverage subs .cooperative]

/-- Modelled from the spec (§4.3, `ratingAverages`): the present,
parseable integer values of a rating field across the window.  Unlike
`trainingValues`, unparseable present values are excluded rather than
mapped to 0. -/
def specValues (subs : List Submission) (f : RatingField) : List Int :=
  subs.filterMap (fun s => (s.rating f).bind jsParseInt)

/-- Modelled from the spec (§4.3, `ratingAverages`): "the arithmetic mean
of present, parseable integer values across the window; a field with no
present values yields average 0". -/
def fieldAverageSpec (subs : List Submission) (f : RatingField) : ℚ :=
  if (specValues subs f).length > 0 then
    ((specValues subs f).sum : ℚ) / ((specValues subs f).length : ℚ)
  else 0

/-- Milliseconds per day, as produced by `setDate(getDate() ± 1)` on
DST-free days. -/
def dayLen : Nat := 86400000

/-- Membership of timestamp `t` in the day window starting at `startT`
(admin.js line 409: `submissionDate >= date && submissionDate < nextDate`). -/
def inDayWindow (startT : Nat) (t : Nat) : Bool :=
  startT ≤ t && t < startT + dayLen

/-- The 7 counts pushed by `updateDailyChart`'s loop (admin.js
lines 398-414).  The loop runs `i = 6 .. 0`, so position `j` holds day
`todayStart - (6-j)·dayLen`: oldest first, today last.  Submissions with
no `submittedAt` are skipped.  `todayStart` is today's local midnight in
milliseconds. -/
def dailyCounts (subs : List Submission) (todayStart : Nat) : List Nat :=
  (List.range 7).map (fun j =>
    (subs.filter (fun s =>
      match s.submittedAt with
      | some t => inDayWindow (todayStart - (6 - j) * dayLen) t
      | none => false)).length)

/-- `this.stats.total = this.submissions.length` (admin.js line 172). -/
def statsTotal (subs : List Submission) : Nat :=
  subs.length

/-! ### Concrete instances used by witnesses and counterexamples -/

/-- A stored anonymous submission matching "yes"/"connections". -/
def subYC : Submission :=
  { interest := "yes", market_obstacle := "connections", business_type := some "coop" }

/-- A second stored submission with the same discriminators. -/
def subYC2 : Submission :=
  { interest := "yes", market_obstacle := "connections", business_type := some "coop",
    submittedAt := some 200 }

/-- A third stored submission with the same discriminators but another
business type. -/
def subYC3 : Submission :=
  { interest := "yes", market_obstacle := "connections", business_type := some "farm",
    submittedAt := some 300 }

/-- A stored submission that does not match "yes"/"connections". -/
def subNB : Submission :=
  { interest := "no", market_obstacle := "branding" }

/-- A contact payload for "yes"/"connections" with business type "coop". -/
def contactYC : ContactData :=
  { fullName := "Jane Doe", companyName := "Acme", email := "jane@acme.test",
    phone := "", interest := "yes", marketObstacle := "connections",
    businessType := some "coop" }

/-- A one-candidate store for the C1 witness. -/
def storeOne : List Doc := [⟨1, subNB⟩, ⟨2, subYC⟩, ⟨3, subNB⟩]

/-- A zero-candidate store for the C6 witness. -/
def storeZero : List Doc := [⟨1, subNB⟩, ⟨2, subNB⟩]

/-- A three-candidate store for the C5 witness (scores 25, 25, 20 in
retrieval order). -/
def storeThree : List Doc := [⟨1, subYC⟩, ⟨2, subYC2⟩, ⟨3, subYC3⟩, ⟨4, subNB⟩]

/-- Checkbox states for the C2 counterexample: group `f` has checked
boxes with values `a`, `a`, `""`, `b`. -/
def cexCheckboxes : List Checkbox :=
  [⟨"f", "a", true⟩, ⟨"f", "a", true⟩, ⟨"f", "", true⟩, ⟨"f", "b", true⟩]

/-- The matching raw `FormData` entry list for the C2 counterexample
(checked checkboxes appear as entries, the empty value included). -/
def cexEntries : List (String × String) :=
  [("f", "a"), ("f", "a"), ("f", ""), ("f", "b")]

/-- Checkbox states for the C2 amended-claim witness. -/
def wCheckboxes : List Checkbox :=
  [⟨"training", "finance", true⟩, ⟨"training", "records", false⟩,
   ⟨"training", "insurance", true⟩]

/-- A wizard state at step 3 with empty answers for the C3 witness. -/
def wizardAt3 : WizardState :=
  { currentStep := 3, formData := fun _ => none, events := [] }

/-- A valid step form: one answered radio group, one checked checkbox
group. -/
def formGood : StepForm :=
  { requiredFields := [.radio "interest" true],
    checkboxes := [⟨"training", "finance", true⟩],
    entries := [("interest", "yes")] }

/-- An invalid step form: the required radio group is unanswered. -/
def formBad : StepForm :=
  { requiredFields := [.radio "interest" false],
    checkboxes := [],
    entries := [] }

/-- A wizard state at step 5 for the C9 witness. -/
def wizardAt5 : WizardState :=
  { currentStep := 5, formData := fun _ => none, events := [.surveyStarted] }

/-- A wizard state at step 0 for the C9 witness. -/
def wizardAt0 : WizardState :=
  { currentStep := 0, formData := fun _ => none, events := [] }

/-- A submission with a parseable rating value "5". -/
def subRate5 : Submission :=
  { interest := "yes", market_obstacle := "branding", financial_proposals := some "5" }

/-- A submission with a present but unparseable rating value. -/
def subRateBad : Submission :=
  { interest := "yes", market_obstacle := "branding", financial_proposals := some "abc" }

/-- A submission with a parseable rating value "3". -/
def subRate3 : Submission :=
  { interest := "yes", market_obstacle := "branding", financial_proposals := some "3" }

/-- Today's local midnight for the C8 witness: six days past the epoch. -/
def wTodayStart : Nat := 6 * dayLen

/-- A feed window of five submissions dated exactly 24 hours before
`wTodayStart`, plus one with no timestamp. -/
def wDailySubs : List Submission :=
  List.replicate 5
    { interest := "yes", market_obstacle := "branding",
      submittedAt := some (5 * dayLen + 10) : Submission } ++
  [{ interest := "no", market_obstacle := "branding" }]

/-! ### Properties of the stable descending sort -/

theorem mem_insertByScore {a m : MatchEntry} {l : List MatchEntry} :
    a ∈ insertByScore m l ↔ a = m ∨ a ∈ l := by
  induction l with
  | nil => simp [insertByScore]
  | cons x xs ih =>
    by_cases hx : x.score ≤ m.score
    · simp [insertByScore, hx]
    · simp [insertByScore, hx, ih]
      tauto

theorem sorted_insertByScore {m : MatchEntry} {l : List MatchEntry}
    (hl : l.Pairwise (fun a b => b.score ≤ a.score)) :
    (insertByScore m l).Pairwise (fun a b => b.score ≤ a.score) := by
  induction l with
  | nil => simp [insertByScore]
  | cons x xs ih =>
    rcases List.pairwise_cons.mp hl with ⟨hx, hxs⟩
    by_cases hscore : x.score ≤ m.score
    · rw [insertByScore, if_pos hscore]
      refine List.pairwise_cons.mpr ⟨?_, hl⟩
      intro b hb
      rcases List.mem_cons.mp hb with rfl | hb
      · exact hscore
      · exact le_trans (hx b hb) hscore
    · rw [insertByScore, if_neg hscore]
      refine List.pairwise_cons.mpr ⟨?_, ih hxs⟩
      intro b hb
      rcases mem_insertByScore.mp hb with rfl | hb
      · exact Nat.le_of_not_le hscore
      · exact hx b hb

theorem sorted_sortByScoreDesc (l : List MatchEntry) :
    (sortByScoreDesc l).Pairwise (fun a b => b.score ≤ a.score) := by
  induction l with
  | nil => simp [sortByScoreDesc]
  | cons x xs ih => exact sorted_insertByScore ih

theorem filter_insertByScore (m : MatchEntry) (l : List MatchEntry) (v : Nat) :
    (insertByScore m l).filter (fun a => a.score == v) =
      if m.score = v then m :: l.filter (fun a => a.score == v)
      else l.filter (fun a => a.score == v) := by
  induction l with
  | nil => by_cases hv : m.score = v <;> simp [insertByScore, hv]
  | cons x xs ih =>
    rw [insertByScore]
    by_cases hscore : x.score ≤ m.score
    · rw [if_pos hscore]
      by_cases hv : m.score = v
      · rw [if_pos hv, List.filter_cons_of_pos (by simp [hv])]
      · rw [if_neg hv, List.filter_cons_of_neg (by simp [hv])]
    · rw [if_neg hscore]
      by_cases hx : x.score = v
      · have hmv : ¬ m.score = v := fun h2 => hscore (le_of_eq (hx.trans h2.symm))
        rw [List.filter_cons_of_pos (by simp [hx]), ih, if_neg hmv, if_neg hmv,
          List.filter_cons_of_pos (by simp [hx])]
      · rw [List.filter_cons_of_neg (by simp [hx]), ih]
        by_cases hv : m.score = v
        · rw [if_pos hv, if_pos hv, List.filter_cons_of_neg (by simp [hx])]
        · rw [if_neg hv, if_neg hv, List.filter_cons_of_neg (by simp [hx])]

theorem filter_sortByScoreDesc (l : List MatchEntry) (v : Nat) :
    (sortByScoreDesc l).filter (fun a => a.score == v) =
      l.filter (fun a => a.score == v) := by
  induction l with
  | nil => rfl
  | cons x xs ih =>
    show (insertByScore x (sortByScoreDesc xs)).filter _ = _
    rw [filter_insertByScore]
    by_cases hv : x.score = v <;> simp [hv, ih]

theorem length_sortByScoreDesc (l : List MatchEntry) :
    (sortByScoreDesc l).length = l.length := by
  induction l with
  | nil => rfl
  | cons x xs ih =>
    show (insertByScore x (sortByScoreDesc xs)).length = _
    rw [List.length_cons, ← ih]
    generalize sortByScoreDesc xs = t
    induction t with
    | nil => rfl
    | cons y ys iht =>
      by_cases h : y.score ≤ x.score <;> simp [insertByScore, h] at iht ⊢
      omega

/-! ### Claim theorems -/

/-- C4: for every submission passing the discriminator pre-filter and
every contact payload, the match score is `20 + 5·[businessType present
and equal]`; in particular it is 20 or 25. -/
theorem match_score_formula (s : Submission) (c : ContactData)
    (h1 : s.interest = c.interest) (h2 : s.market_obstacle = c.marketObstacle) :
    calculateMatchScore s c =
      20 + 5 * (if c.businessType.isSome ∧ s.business_type = c.businessType
                then 1 else 0) ∧
    (calculateMatchScore s c = 20 ∨ calculateMatchScore s c = 25) := by
  cases hbt : c.businessType with
  | none => simp [calculateMatchScore, h1, h2, hbt]
  | some bt =>
    by_cases hb : s.business_type = some bt <;>
      simp [calculateMatchScore, h1, h2, hbt, hb]

/-- C4 witness: the score formula at a concrete matching submission and
payload. -/
theorem match_score_formula_witness :
    calculateMatchScore subYC contactYC =
      20 + 5 * (if contactYC.businessType.isSome ∧
                   subYC.business_type = contactYC.businessType
                then 1 else 0) ∧
    (calculateMatchScore subYC contactYC = 20 ∨
      calculateMatchScore subYC contactYC = 25) :=
  match_score_formula subYC contactYC (by decide) (by decide)

/-- C6: when the discriminator query returns zero candidates, the matcher
mutates nothing and reports the no-match outcome; the no-match handler
itself leaves the store untouched. -/
theorem match_zero_candidates (store : List Doc) (c : ContactData) (now : Nat)
    (choice : Option Nat) (h : store.filter (discrimFilter c) = []) :
    handleSubmit store c now choice = (store, MatchOutcome.noMatch) ∧
    handleNoMatch store = store := by
  have hcand : candidates store c = [] := by
    simp [candidates, h]
  have hms : findMatchingSubmissions store c = [] := by
    simp [findMatchingSubmissions, hcand, sortByScoreDesc]
  refine ⟨?_, rfl⟩
  simp [handleSubmit, hms, handleNoMatch]

/-- C6 witness: a store with no "yes"/"connections" submission passes
through `handleSubmit` unchanged with a no-match outcome. -/
theorem match_zero_candidates_witness :
    handleSubmit storeZero contactYC 7 none = (storeZero, MatchOutcome.noMatch) ∧
    handleNoMatch storeZero = storeZero :=
  match_zero_candidates storeZero contactYC 7 none (by decide)

/-- C1: when exactly one stored submission satisfies the discriminator
pre-filter, the matcher auto-links it: the contact fields are written onto
it, its `hasContactInfo` flag becomes true, and every other stored record
is unchanged. -/
theorem contact_link_unique_match (store : List Doc) (c : ContactData)
    (now : Nat) (choice : Option Nat) (d : Doc)
    (hone : store.filter (discrimFilter c) = [d]) :
    (handleSubmit store c now choice).2 = MatchOutcome.autoLinked d.id ∧
    (handleSubmit store c now choice).1 =
      store.map (fun e => if e.id = d.id then
        { e with data := applyContactUpdate e.data c now } else e) ∧
    (applyContactUpdate d.data c now).hasContactInfo = true ∧
    (applyContactUpdate d.data c now).fullName = some c.fullName ∧
    (applyContactUpdate d.data c now).companyName = some c.companyName ∧
    (applyContactUpdate d.data c now).email =
      (if c.email = "" then none else some c.email) ∧
    (applyContactUpdate d.data c now).phone =
      (if c.phone = "" then none else some c.phone) ∧
    ∀ i, (hi : i < store.length) → (store[i]).id ≠ d.id →
      (handleSubmit store c now choice).1[i]? = some store[i] := by
  have hcand : candidates store c =
      [{ id := d.id, data := d.data,
         score := calculateMatchScore d.data c }] := by
    simp [candidates, hone]
  have hms : findMatchingSubmissions store c =
      [{ id := d.id, data := d.data,
         score := calculateMatchScore d.data c }] := by
    simp [findMatchingSubmissions, hcand, sortByScoreDesc, insertByScore]
  have hout : handleSubmit store c now choice =
      (updateSubmission store d.id c now, MatchOutcome.autoLinked d.id) := by
    simp [handleSubmit, hms]
  refine ⟨by rw [hout], by rw [hout]; rfl, rfl, rfl, rfl, rfl, rfl, ?_⟩
  intro i hi hne
  rw [hout]
  show (updateSubmission store d.id c now)[i]? = some store[i]
  rw [updateSubmission, List.getElem?_map, List.getElem?_eq_getElem hi]
  simp [hne]

/-- C1 witness: a three-record store with exactly one "yes"/"connections"
submission; linking writes the contact fields to record 2 and leaves
records 1 and 3 unchanged. -/
theorem contact_link_unique_match_witness :
    (handleSubmit storeOne contactYC 7 none).2 = MatchOutcome.autoLinked 2 ∧
    (handleSubmit storeOne contactYC 7 none).1 =
      storeOne.map (fun e => if e.id = 2 then
        { e with data := applyContactUpdate e.data contactYC 7 } else e) ∧
    (applyContactUpdate subYC contactYC 7).hasContactInfo = true := by
  have h := contact_link_unique_match storeOne contactYC 7 none ⟨2, subYC⟩ (by decide)
  exact ⟨h.1, h.2.1, h.2.2.1⟩

/-- C10: the linking write touches exactly the six identity fields
(`fullName`, `companyName`, `email`, `phone`, `contactUpdatedAt`,
`hasContactInfo`) and no survey-answer field; rerunning it on an
already-linked submission simply overwrites those six fields. -/
theorem contact_update_frame (s : Submission) (c c2 : ContactData)
    (now now2 : Nat) :
    (applyContactUpdate s c now).interest = s.interest ∧
    (applyContactUpdate s c now).market_obstacle = s.market_obstacle ∧
    (applyContactUpdate s c now).business_type = s.business_type ∧
    (applyContactUpdate s c now).financial_proposals = s.financial_proposals ∧
    (applyContactUpdate s c now).cash_flow = s.cash_flow ∧
    (applyContactUpdate s c now).insurance = s.insurance ∧
    (applyContactUpdate s c now).record_keeping = s.record_keeping ∧
    (applyContactUpdate s c now).cooperative = s.cooperative ∧
    (applyContactUpdate s c now).biggest_challenge = s.biggest_challenge ∧
    (applyContactUpdate s c now).session_feedback = s.session_feedback ∧
    (applyContactUpdate s c now).surveyId = s.surveyId ∧
    (applyContactUpdate s c now).submittedAt = s.submittedAt ∧
    (applyContactUpdate s c now).completionTime = s.completionTime ∧
    (applyContactUpdate s c now).fullName = some c.fullName ∧
    (applyContactUpdate s c now).companyName = some c.companyName ∧
    (applyContactUpdate s c now).email =
      (if c.email = "" then none else some c.email) ∧
    (applyContactUpdate s c now).phone =
      (if c.phone = "" then none else some c.phone) ∧
    (applyContactUpdate s c now).contactUpdatedAt = some now ∧
    (applyContactUpdate s c now).hasContactInfo = true ∧
    applyContactUpdate (applyContactUpdate s c now) c2 now2 =
      applyContactUpdate s c2 now2 := by
  refine ⟨rfl, rfl, rfl, rfl, rfl, rfl, rfl, rfl, rfl, rfl, rfl, rfl, rfl,
    rfl, rfl, rfl, rfl, rfl, rfl, rfl⟩

/-- C5: with two or more candidates the matcher sorts them descending by
score with retrieval order as the stable tie-break (each score class keeps
its retrieval order), presents the top 3 at most, links exactly the picked
candidate leaving every other record unchanged, and mutates nothing on
cancel. -/
theorem match_multiple_candidates (store : List Doc) (c : ContactData)
    (now : Nat) (k : Nat)
    (h2 : 2 ≤ (findMatchingSubmissions store c).length)
    (hk : k < min 3 (findMatchingSubmissions store c).length) :
    (findMatchingSubmissions store c).Pairwise (fun a b => b.score ≤ a.score) ∧
    (∀ v, (findMatchingSubmissions store c).filter (fun m => m.score == v) =
      (candidates store c).filter (fun m => m.score == v)) ∧
    (handleSubmit store c now (some k)).2 =
      MatchOutcome.multipleMatches ((findMatchingSubmissions store c).take 3) ∧
    ((findMatchingSubmissions store c).take 3).length ≤ 3 ∧
    (∃ m, (findMatchingSubmissions store c)[k]? = some m ∧
      (handleSubmit store c now (some k)).1 =
        store.map (fun e => if e.id = m.id then
          { e with data := applyContactUpdate e.data c now } else e) ∧
      ∀ i, (hi : i < store.length) → (store[i]).id ≠ m.id →
        (handleSubmit store c now (some k)).1[i]? = some store[i]) ∧
    (handleSubmit store c now none).1 = store := by
  have hk' : k < (findMatchingSubmissions store c).length :=
    lt_of_lt_of_le hk (min_le_right 3 _)
  cases hms : findMatchingSubmissions store c with
  | nil => rw [hms] at h2; simp at h2
  | cons a t =>
    cases t with
    | nil => rw [hms] at h2; simp at h2
    | cons b l =>
      have hdispatch : ∀ ch, handleSubmit store c now ch =
          (handleMultipleMatches store (a :: b :: l) c now ch,
           MatchOutcome.multipleMatches ((a :: b :: l).take 3)) := by
        intro ch
        simp [handleSubmit, hms]
      rw [hms] at hk'
      have hget : (a :: b :: l)[k]? = some ((a :: b :: l)[k]) :=
        List.getElem?_eq_getElem hk'
      refine ⟨?_, ?_, ?_, ?_, ?_, ?_⟩
      · rw [← hms]; exact sorted_sortByScoreDesc (candidates store c)
      · intro v
        rw [← hms]
        exact filter_sortByScoreDesc (candidates store c) v
      · rw [hdispatch (some k)]
      · simp [List.length_take]
      · refine ⟨(a :: b :: l)[k], hget, ?_, ?_⟩
        · rw [hdispatch (some k)]
          show handleMultipleMatches store (a :: b :: l) c now (some k) = _
          rw [handleMultipleMatches, hget]
          rfl
        · intro i hi hne
          rw [hdispatch (some k)]
          show (handleMultipleMatches store (a :: b :: l) c now (some k))[i]? =
            some store[i]
          rw [handleMultipleMatches, hget]
          show (updateSubmission store _ c now)[i]? = some store[i]
          rw [updateSubmission, List.getElem?_map, List.getElem?_eq_getElem hi]
          simp [hne]
      · rw [hdispatch none]
        rfl

/-- C5 witness: three candidates scoring 25, 25, 20 in retrieval order;
the scores come out sorted with the two 25s first, picking the
second-listed candidate links only record 2, and cancelling changes
nothing. -/
theorem match_multiple_candidates_witness :
    (findMatchingSubmissions storeThree contactYC).map MatchEntry.score =
      [25, 25, 20] ∧
    (findMatchingSubmissions storeThree contactYC).map MatchEntry.id =
      [1, 2, 3] ∧
    (handleSubmit storeThree contactYC 7 (some 1)).2 =
      MatchOutcome.multipleMatches
        ((findMatchingSubmissions storeThree contactYC).take 3) ∧
    (handleSubmit storeThree contactYC 7 (some 1)).1 =
      [⟨1, subYC⟩, ⟨2, applyContactUpdate subYC2 contactYC 7⟩,
       ⟨3, subYC3⟩, ⟨4, subNB⟩] ∧
    (handleSubmit storeThree contactYC 7 none).1 = storeThree := by
  have h := match_multiple_candidates storeThree contactYC 7 1
    (by decide) (by decide)
  exact ⟨by decide, by decide, h.2.2.1, by decide, h.2.2.2.2.2⟩

/-- C3: the advance operation is gated on validation: validity is exactly
emptiness of the violation list; on a violation the whole wizard state is
unchanged (no index move, no merge, no event); on success below the last
step the answers are merged, the index moves to `i+1` and one
step-completed event carrying the just-left index `i` is emitted. -/
theorem wizard_advance_gated (st : WizardState) (form : StepForm)
    (hlt : st.currentStep < totalSteps - 1) :
    (validateCurrentStep form = true ↔ stepViolations form = []) ∧
    (validateCurrentStep form = false → nextStep st form = st) ∧
    (validateCurrentStep form = true →
      (nextStep st form).currentStep = st.currentStep + 1 ∧
      (nextStep st form).formData =
        saveCurrentStepData st.formData form.entries form.checkboxes ∧
      (nextStep st form).events =
        st.events ++ [ActivityEvent.stepCompleted st.currentStep]) := by
  refine ⟨?_, ?_, ?_⟩
  · simp [validateCurrentStep, List.isEmpty_iff]
  · intro h
    simp [nextStep, h]
  · intro h
    have h14 : st.currentStep + 1 < totalSteps := by
      simp only [totalSteps] at hlt ⊢
      omega
    simp [nextStep, h, hlt, changeStep, h14]

/-- C3 witness: at step 3, a valid form advances to step 4 and emits the
step-completed event for step 3; an invalid form leaves the state
untouched. -/
theorem wizard_advance_gated_witness :
    validateCurrentStep formGood = true ∧
    (nextStep wizardAt3 formGood).currentStep = 4 ∧
    (nextStep wizardAt3 formGood).events = [ActivityEvent.stepCompleted 3] ∧
    validateCurrentStep formBad = false ∧
    nextStep wizardAt3 formBad = wizardAt3 := by
  have hg := wizard_advance_gated wizardAt3 formGood (by decide)
  have hb := wizard_advance_gated wizardAt3 formBad (by decide)
  have h1 := hg.2.2 (by decide)
  refine ⟨by decide, h1.1.trans rfl, ?_, by decide, hb.2.1 (by decide)⟩
  rw [h1.2.2]
  rfl

/-- C9: retreat from a step `i > 0` always succeeds: it decrements the
index by one, keeps every already-merged answer, and emits no event;
retreat from step 0 is a no-op. -/
theorem wizard_retreat_total (st : WizardState)
    (hin : st.currentStep < totalSteps) :
    (0 < st.currentStep →
      (previousStep st).currentStep = st.currentStep - 1 ∧
      (previousStep st).formData = st.formData ∧
      (previousStep st).events = st.events) ∧
    (st.currentStep = 0 → previousStep st = st) := by
  constructor
  · intro h
    have h14 : st.currentStep - 1 < totalSteps := by
      simp only [totalSteps] at hin ⊢
      omega
    simp [previousStep, h, changeStep, h14]
  · intro h
    simp [previousStep, h]

/-- C9 witness: retreat at step 5 moves to step 4 preserving answers and
events; retreat at step 0 changes nothing. -/
theorem wizard_retreat_total_witness :
    (previousStep wizardAt5).currentStep = 4 ∧
    (previousStep wizardAt5).formData = wizardAt5.formData ∧
    (previousStep wizardAt5).events = wizardAt5.events ∧
    previousStep wizardAt0 = wizardAt0 := by
  have h5 := wizard_retreat_total wizardAt5 (by decide)
  have h0 := wizard_retreat_total wizardAt0 (by decide)
  have h := h5.1 (by decide)
  exact ⟨h.1.trans rfl, h.2.1, h.2.2, h0.2 rfl⟩

/-- C2 counterexample: with checkbox group `f` carrying checked boxes
valued `a`, `a`, `""`, `b`, the merged mapping stores the raw list
`[a, a, "", b]` — it has a duplicate and an empty entry, and is not the
deduplicated set `[a, b]` the claim requires. -/
theorem multiselect_merge_cex :
    saveCurrentStepData (fun _ => none) cexEntries cexCheckboxes "f" =
      some (FormValue.arr ["a", "a", "", "b"]) ∧
    ¬ (List.Nodup ["a", "a", "", "b"] ∧ "" ∉ ["a", "a", "", "b"]) ∧
    saveCurrentStepData (fun _ => none) cexEntries cexCheckboxes "f" ≠
      some (FormValue.arr ["a", "b"]) := by
  refine ⟨by decide, by decide, by decide⟩

/-- Looking a key up after folding assignments over names not containing
it returns the original slot. -/
theorem foldl_setField_of_not_mem (g : String → FormValue) (fd : FormDataMap)
    (names : List String) (n : String) (hn : n ∉ names) :
    (names.foldl (fun fd m => setField fd m (g m)) fd) n = fd n := by
  induction names generalizing fd with
  | nil => rfl
  | cons m rest ih =>
    rw [List.foldl_cons]
    have hnm : n ≠ m := fun h => hn (h ▸ List.mem_cons_self m rest)
    rw [ih _ (fun h => hn (List.mem_cons_of_mem _ h)), setField, if_neg hnm]

/-- Looking a key up after folding assignments over a duplicate-free name
list containing it returns that key's assigned value. -/
theorem foldl_setField_of_mem (g : String → FormValue) (fd : FormDataMap)
    (names : List String) (n : String) (hnd : names.Nodup) (hn : n ∈ names) :
    (names.foldl (fun fd m => setField fd m (g m)) fd) n = some (g n) := by
  induction names generalizing fd with
  | nil => cases hn
  | cons m rest ih =>
    rw [List.foldl_cons]
    rcases List.mem_cons.mp hn with rfl | hmem
    · have hrest : n ∉ rest := (List.nodup_cons.mp hnd).1
      rw [foldl_setField_of_not_mem _ _ _ _ hrest, setField, if_pos rfl]
    · exact ih _ (List.nodup_cons.mp hnd).2 hmem

/-- C2 amended: after merging a step, each multi-select field stores
exactly the list of that group's checked values in document order —
duplicates and empty strings among the checked values are preserved, not
removed. -/
theorem multiselect_merge_amended (fd : FormDataMap)
    (entries : List (String × String)) (checkboxes : List Checkbox)
    (n : String) (hn : n ∈ checkboxNames checkboxes) :
    saveCurrentStepData fd entries checkboxes n =
      some (FormValue.arr (checkedValues checkboxes n)) := by
  unfold saveCurrentStepData
  exact foldl_setField_of_mem (fun m => FormValue.arr (checkedValues checkboxes m))
    (entries.foldl (fun fd kv => mergeFormEntry fd kv.1 kv.2) fd)
    (checkboxNames checkboxes) n (List.nodup_dedup _) hn

/-- C2 amended witness: a concrete group stores exactly its checked
values. -/
theorem multiselect_merge_amended_witness :
    ("training" ∈ checkboxNames wCheckboxes) ∧
    checkedValues wCheckboxes "training" = ["finance", "insurance"] ∧
    saveCurrentStepData (fun _ => none) [] wCheckboxes "training" =
      some (FormValue.arr (checkedValues wCheckboxes "training")) :=
  ⟨by decide, by decide,
    multiselect_merge_amended (fun _ => none) [] wCheckboxes "training" (by decide)⟩

/-- C7 counterexample: a window holding rating values "5" and "abc".
"abc" is present but unparseable; the code averages it as 0 giving 5/2,
while the mean of the present parseable values is 5. -/
theorem rating_averages_cex :
    fieldAverage [subRate5, subRateBad] RatingField.financial_proposals = 5 / 2 ∧
    fieldAverageSpec [subRate5, subRateBad] RatingField.financial_proposals = 5 ∧
    fieldAverage [subRate5, subRateBad] RatingField.financial_proposals ≠
      fieldAverageSpec [subRate5, subRateBad] RatingField.financial_proposals := by
  have hv : trainingValues [subRate5, subRateBad]
      RatingField.financial_proposals = [5, 0] := by decide
  have hw : specValues [subRate5, subRateBad]
      RatingField.financial_proposals = [5] := by decide
  have h1 : fieldAverage [subRate5, subRateBad]
      RatingField.financial_proposals = 5 / 2 := by
    rw [fieldAverage, hv]
    norm_num
  have h2 : fieldAverageSpec [subRate5, subRateBad]
      RatingField.financial_proposals = 5 := by
    rw [fieldAverageSpec, hw]
    norm_num
  refine ⟨h1, h2, ?_⟩
  rw [h1, h2]
  norm_num

/-- C7 amended: the training-chart average of a rating field is the mean
over present (truthy) values of `parseInt(value) || 0`; whenever every
present value actually parses this coincides with the spec's mean of
parseable values, and a field with no values — in particular the empty
window — yields exactly 0. -/
theorem rating_averages_amended (subs : List Submission) (f : RatingField)
    (hp : ∀ s ∈ subs, ∀ v, s.rating f = some v → v ≠ "" →
      (jsParseInt v).isSome) :
    fieldAverage subs f = fieldAverageSpec subs f ∧
    fieldAverage [] f = 0 ∧
    ratingAverages [] = [0, 0, 0, 0, 0] := by
  refine ⟨?_, by simp [fieldAverage, trainingValues],
    by simp [ratingAverages, fieldAverage, trainingValues]⟩
  have key : ∀ (l : List Submission),
      (∀ s ∈ l, ∀ v, s.rating f = some v → v ≠ "" → (jsParseInt v).isSome) →
      trainingValues l f = specValues l f := by
    intro l
    induction l with
    | nil => intro _; rfl
    | cons s rest ih =>
      intro hl
      have ihr := ih (fun a ha v hv hne => hl a (List.mem_cons_of_mem _ ha) v hv hne)
      rw [trainingValues, specValues] at ihr ⊢
      cases hrf : s.rating f with
      | none =>
        rw [List.filter_cons_of_neg (by simp [hrf]), List.filterMap_cons]
        simp only [hrf, Option.none_bind]
        exact ihr
      | some v =>
        by_cases hv : v = ""
        · subst hv
          rw [List.filter_cons_of_neg (by simp [hrf]), List.filterMap_cons]
          have hnone : jsParseInt "" = none := by decide
          simp only [hrf, Option.some_bind, hnone]
          exact ihr
        · obtain ⟨m, hm⟩ := Option.isSome_iff_exists.mp
            (hl s (List.mem_cons_self s rest) v hrf hv)
          rw [List.filter_cons_of_pos (by simp [hrf, hv]), List.map_cons,
            List.filterMap_cons]
          simp only [hrf, Option.some_bind, hm, Option.getD_some]
          rw [ihr]
  have hval := key subs hp
  rw [fieldAverage, fieldAverageSpec, hval]

/-- C7 amended witness: over concrete values "5" and "3" the code average
equals the spec average, and the empty window yields all zeros. -/
theorem rating_averages_amended_witness :
    fieldAverage [subRate5, subRate3] RatingField.financial_proposals =
      fieldAverageSpec [subRate5, subRate3] RatingField.financial_proposals ∧
    fieldAverage [] RatingField.financial_proposals = 0 ∧
    ratingAverages [] = [0, 0, 0, 0, 0] := by
  refine rating_averages_amended [subRate5, subRate3]
    RatingField.financial_proposals ?_
  intro s hs v hv hne
  rcases List.mem_cons.mp hs with rfl | hs2
  · simp only [Submission.rating, subRate5, Option.some.injEq] at hv
    subst hv
    decide
  · rcases List.mem_cons.mp hs2 with rfl | hs3
    · simp only [Submission.rating, subRate3, Option.some.injEq] at hv
      subst hv
      decide
    · cases hs3

/-- Sum over `range (n+1)` splits off the last term. -/
theorem sum_map_range_succ (f : Nat → Nat) (n : Nat) :
    ((List.range (n + 1)).map f).sum = ((List.range n).map f).sum + f n := by
  rw [List.range_succ, List.map_append, List.sum_append]
  simp

/-- A sum of zeros over a range is zero. -/
theorem sum_map_range_eq_zero (f : Nat → Nat) (n : Nat)
    (h : ∀ j, j < n → f j = 0) :
    ((List.range n).map f).sum = 0 := by
  induction n with
  | zero => rfl
  | succ n ih =>
    rw [sum_map_range_succ,
      ih (fun j hj => h j (Nat.lt_succ_of_lt hj)), h n (Nat.lt_succ_self n)]

/-- Sums over a range distribute over pointwise addition. -/
theorem sum_map_range_add (f g : Nat → Nat) (n : Nat) :
    ((List.range n).map (fun j => f j + g j)).sum =
      ((List.range n).map f).sum + ((List.range n).map g).sum := by
  induction n with
  | zero => rfl
  | succ n ih =>
    rw [sum_map_range_succ, sum_map_range_succ f, sum_map_range_succ g, ih]
    omega

/-- If at most one index of the range satisfies `b`, the sum of its
indicators is at most one. -/
theorem sum_map_range_ite_le_one (b : Nat → Bool) (n : Nat)
    (h : ∀ j k, j < n → k < n → b j = true → b k = true → j = k) :
    ((List.range n).map (fun j => if b j then 1 else 0)).sum ≤ 1 := by
  induction n with
  | zero => simp
  | succ n ih =>
    rw [sum_map_range_succ]
    cases hb : b n with
    | true =>
      have hz : ((List.range n).map (fun j => if b j then 1 else 0)).sum = 0 := by
        apply sum_map_range_eq_zero
        intro j hj
        cases hbj : b j with
        | true =>
          exact absurd (h j n (Nat.lt_succ_of_lt hj) (Nat.lt_succ_self n) hbj hb)
            (Nat.ne_of_lt hj)
        | false => simp
      rw [hz]
      simp
    | false =>
      have hle := ih (fun j k hj hk =>
        h j k (Nat.lt_succ_of_lt hj) (Nat.lt_succ_of_lt hk))
      simpa using hle

/-- When the predicates `P 0 .. P (n-1)` are mutually exclusive on the
list's elements, the per-predicate counts sum to at most the list's
length. -/
theorem sum_countP_range_le {α : Type} (P : Nat → α → Bool) (n : Nat)
    (l : List α)
    (h : ∀ a ∈ l, ∀ j k, j < n → k < n → P j a = true → P k a = true → j = k) :
    ((List.range n).map (fun j => l.countP (P j))).sum ≤ l.length := by
  induction l with
  | nil =>
    rw [sum_map_range_eq_zero _ n (fun j _ => List.countP_nil (P j))]
    simp
  | cons a l ih =>
    have hstep : ((List.range n).map (fun j => (a :: l).countP (P j))).sum =
        ((List.range n).map (fun j =>
          l.countP (P j) + (if P j a then 1 else 0))).sum := by
      congr 1
      apply List.map_congr_left
      intro j _
      rw [List.countP_cons]
    rw [hstep, sum_map_range_add]
    have h1 := ih (fun b hb => h b (List.mem_cons_of_mem _ hb))
    have h2 := sum_map_range_ite_le_one (fun j => P j a) n
      (fun j k hj hk => h a (List.mem_cons_self a l) j k hj hk)
    calc ((List.range n).map (fun j => l.countP (P j))).sum +
          ((List.range n).map (fun j => if P j a then 1 else 0)).sum
        ≤ l.length + 1 := Nat.add_le_add h1 h2
      _ = (a :: l).length := (List.length_cons a l).symm

/-- Two of the 7 day windows can only contain the same timestamp if they
are the same window. -/
theorem inDayWindow_unique (todayStart t j k : Nat) (h : 6 * dayLen ≤ todayStart)
    (hj : j < 7) (hk : k < 7)
    (hjt : inDayWindow (todayStart - (6 - j) * dayLen) t = true)
    (hkt : inDayWindow (todayStart - (6 - k) * dayLen) t = true) : j = k := by
  simp only [inDayWindow, dayLen, Bool.and_eq_true, decide_eq_true_eq] at hjt hkt
  simp only [dayLen] at h
  omega

/-- C8: the daily trend is 7 counts; position `j` counts exactly the
submissions whose timestamp lies in the window
`[todayStart - (6-j)·day, todayStart - (6-j)·day + day)` — oldest day
first, today last — and the 7 counts sum to at most the window's total
submission count. -/
theorem daily_trend_bounds (subs : List Submission) (todayStart : Nat)
    (h : 6 * dayLen ≤ todayStart) :
    (dailyCounts subs todayStart).length = 7 ∧
    (∀ j, j < 7 → (dailyCounts subs todayStart)[j]? =
      some (subs.countP (fun s =>
        s.submittedAt.any (fun t =>
          inDayWindow (todayStart - (6 - j) * dayLen) t)))) ∧
    (dailyCounts subs todayStart).sum ≤ statsTotal subs := by
  refine ⟨by simp [dailyCounts], ?_, ?_⟩
  · intro j hj
    rw [dailyCounts, List.getElem?_map, List.getElem?_range hj]
    simp only [Option.map_some']
    congr 1
    rw [← List.countP_eq_length_filter]
    congr 1
    funext s
    cases s.submittedAt <;> rfl
  · have hsum : (dailyCounts subs todayStart).sum =
        ((List.range 7).map (fun j => subs.countP (fun s =>
          match s.submittedAt with
          | some t => inDayWindow (todayStart - (6 - j) * dayLen) t
          | none => false))).sum := by
      rw [dailyCounts]
      congr 1
      apply List.map_congr_left
      intro j _
      rw [← List.countP_eq_length_filter]
    rw [hsum, statsTotal]
    apply sum_countP_range_le
    intro s _ j k hj hk hPj hPk
    cases hst : s.submittedAt with
    | none =>
      rw [hst] at hPj
      exact absurd hPj (by simp)
    | some t =>
      rw [hst] at hPj hPk
      exact inDayWindow_unique todayStart t j k h hj hk hPj hPk

/-- C8 witness: six days of empty history plus five submissions dated
exactly 24 hours ago and one undated submission: 7 slots, a 5 in the
"yesterday" slot, and the sum stays below the window total. -/
theorem daily_trend_bounds_witness :
    (dailyCounts wDailySubs wTodayStart).length = 7 ∧
    (dailyCounts wDailySubs wTodayStart).sum ≤ statsTotal wDailySubs ∧
    dailyCounts wDailySubs wTodayStart = [0, 0, 0, 0, 0, 5, 0] := by
  have h := daily_trend_bounds wDailySubs wTodayStart (by decide)
  exact ⟨h.1, h.2.2, by decide⟩

end BpnYean
